import Mathlib

/-!
Verification development for the EVM-ERC20-Scanner repository.

The definitions below are a shallow embedding of the services under
src/services and src/models: pure computations are translated directly,
stateful database code is modelled by explicit state passing over lists of
records, and every external effect (RPC call, HTTP delivery, database
write) is represented by an explicit outcome parameter (an oracle
function or an Option result), so that both the success and the failure
branches of each try/catch in the source are represented.
-/

namespace EvmScanner

/-! ## Data model (src/models) -/

/-- Transfer status enum from src/models/Transfer.ts:
pending, confirmed, failed. -/
inductive TransferStatus where
  | pending
  | confirmed
  | failed
deriving DecidableEq, Repr

/-- In-memory transfer event decoded from a chain log
(BlockchainService.ts, interface TransferEvent). Block numbers are
modelled as Int, matching the arithmetic done on JS numbers. -/
structure TransferEvent where
  transactionHash : String
  blockNumber : Int
  fromAddress : String
  toAddress : String
  amount : String
  logIndex : Int
  transactionIndex : Int
deriving DecidableEq, Repr

/-- Persisted Transfer document (src/models/Transfer.ts). The schema
declares transactionHash unique; timestamps and webhookSentAt are
omitted (time-valued metadata not used by any claim). -/
structure Transfer where
  transactionHash : String
  blockNumber : Int
  fromAddress : String
  toAddress : String
  amount : String
  amountFormatted : String
  status : TransferStatus
  confirmationCount : Int
  webhookSent : Bool
deriving DecidableEq, Repr

/-- The Transfer collection is modelled as a list of documents in
insertion order; findOne is List.find? on the queried field. -/
abbrev TransferStore := List Transfer

/-! ## BlockchainService.formatUSDTAmount (src/services/BlockchainService.ts)

The source computes parseFloat(web3.utils.fromWei(weiAmount)).toFixed(6):
the raw 18-decimal integer is divided by 10^18 and rendered with exactly
six decimal places. We embed the exact-arithmetic content of that
computation: the integer of micro-tokens (the displayed value times 10^6)
obtained by rounding the raw amount at 10^12 wei, half away from zero,
which is the rounding toFixed performs on an exactly represented value.
The double-precision pass through parseFloat in the source can only add
further drift on top of this exact model, so any loss exhibited here is
also present in the source. -/

/-- Micro-token value denoted by the 6-decimal display string produced by
BlockchainService.formatUSDTAmount, under exact decimal arithmetic. -/
def formatUSDTAmountMicro (weiAmount : Nat) : Nat :=
  (weiAmount + 5 * 10 ^ 11) / 10 ^ 12

/-- Converting a 6-decimal display amount back through the stated 10^18
scale factor: micro-tokens times 10^12 gives the raw integer again. -/
def microToWei (micro : Nat) : Nat := micro * 10 ^ 12

/-- Round trip of the amount formatting claimed by the spec: format the
raw integer to the 6-decimal display value, then convert back through
the scale factor. -/
def usdtRoundTrip (weiAmount : Nat) : Nat :=
  microToWei (formatUSDTAmountMicro weiAmount)

/-! ## TransferService (src/services/TransferService.ts) -/

/-- TransferService.saveTransferEvent: findOne by transactionHash; if a
document exists, return it and write nothing; otherwise insert a new
document with status pending, confirmationCount 0, webhookSent false.
Returns the resulting document together with the updated store. -/
def saveTransferEvent (store : TransferStore) (event : TransferEvent)
    (amountFormatted : String) : Transfer × TransferStore :=
  match store.find? (fun t => t.transactionHash == event.transactionHash) with
  | some existing => (existing, store)
  | none =>
    let t : Transfer :=
      { transactionHash := event.transactionHash
        blockNumber := event.blockNumber
        fromAddress := event.fromAddress
        toAddress := event.toAddress
        amount := event.amount
        amountFormatted := amountFormatted
        status := TransferStatus.pending
        confirmationCount := 0
        webhookSent := false }
    (t, store ++ [t])

/-- TransferService.batchSaveTransferEvents: saves each event in order
through saveTransferEvent, formatting the amount with the supplied
function (the scanner passes BlockchainService.formatUSDTAmount). -/
def batchSaveTransferEvents (events : List TransferEvent)
    (fmt : String → String) (store : TransferStore) : TransferStore :=
  events.foldl (fun s e => (saveTransferEvent s e (fmt e.amount)).2) store

/-- Whether a document with the given transactionHash exists in the
store (the findOne test used by saveTransferEvent). -/
def hasHash (store : TransferStore) (h : String) : Bool :=
  (store.find? (fun t => t.transactionHash == h)).isSome

/-! ## TransferService.updateConfirmationStatus -/

/-- Body of the per-document loop in
TransferService.updateConfirmationStatus: documents with status pending
get confirmationCount recomputed as max 0 (currentBlockNumber minus
blockNumber) and are promoted to confirmed once that difference reaches
confirmationBlocks; the find filters on status pending, so any other
document is left untouched. -/
def updateOneConfirmation (currentBlockNumber confirmationBlocks : Int)
    (t : Transfer) : Transfer :=
  if t.status = TransferStatus.pending then
    if currentBlockNumber - t.blockNumber ≥ confirmationBlocks then
      { t with confirmationCount := max 0 (currentBlockNumber - t.blockNumber)
               status := TransferStatus.confirmed }
    else
      { t with confirmationCount := max 0 (currentBlockNumber - t.blockNumber) }
  else t

/-- TransferService.updateConfirmationStatus: one confirmation-loop tick
over the whole store. -/
def updateConfirmationStatus (currentBlockNumber confirmationBlocks : Int)
    (store : TransferStore) : TransferStore :=
  store.map (updateOneConfirmation currentBlockNumber confirmationBlocks)

/-! ## WebhookService (src/services/WebhookService.ts) -/

/-- Outcome of one webhook POST attempt as seen by the retry loops: a
2xx response; a non-2xx response below 500, which axios validateStatus
accepts so no exception is thrown; or a thrown error (network failure,
timeout, or a 5xx response, which validateStatus rejects). -/
inductive AttemptOutcome where
  | ok2xx
  | non2xx
  | thrown
deriving DecidableEq, Repr

/-- Fast-retry budget of WebhookService (the field maxRetries = 3). -/
def webhookFastRetries : Nat := 3

/-- Retry loop of WebhookService.sendWithdrawalCallback. Attempts are
numbered from 1 and fuel counts attempts still allowed by the loop
bound. A 2xx response returns success immediately. A non-2xx response
below 500 only logs a warning and falls through to the next loop
iteration; when it happens on the last allowed attempt the loop simply
exits and the function returns false without enqueueing anything. A
thrown error on the last attempt calls addPendingCallback and returns
false; on an earlier attempt it sleeps and retries. The first component
is the delivery result, the second records whether addPendingCallback
was invoked. -/
def withdrawalCallbackGo (att : Nat → AttemptOutcome) :
    Nat → Nat → Bool × Bool
  | _, 0 => (false, false)
  | attempt, fuel + 1 =>
    match att attempt with
    | AttemptOutcome.ok2xx => (true, false)
    | AttemptOutcome.non2xx => withdrawalCallbackGo att (attempt + 1) fuel
    | AttemptOutcome.thrown =>
      if attempt = webhookFastRetries then (false, true)
      else withdrawalCallbackGo att (attempt + 1) fuel

/-- WebhookService.sendWithdrawalCallback, as a function of the outcome
of each POST attempt. -/
def sendWithdrawalCallbackModel (att : Nat → AttemptOutcome) : Bool × Bool :=
  withdrawalCallbackGo att 1 webhookFastRetries

/-- Retry loop of WebhookService.sendDepositCallback: identical to the
withdrawal loop except that exhausting the attempts, in either failure
mode, just returns false; the deposit path contains no
addPendingCallback call at all. -/
def depositCallbackGo (att : Nat → AttemptOutcome) :
    Nat → Nat → Bool × Bool
  | _, 0 => (false, false)
  | attempt, fuel + 1 =>
    match att attempt with
    | AttemptOutcome.ok2xx => (true, false)
    | AttemptOutcome.non2xx => depositCallbackGo att (attempt + 1) fuel
    | AttemptOutcome.thrown =>
      if attempt = webhookFastRetries then (false, false)
      else depositCallbackGo att (attempt + 1) fuel

/-- WebhookService.sendDepositCallback, as a function of the outcome of
each POST attempt. -/
def sendDepositCallbackModel (att : Nat → AttemptOutcome) : Bool × Bool :=
  depositCallbackGo att 1 webhookFastRetries

/-! ## PendingCallback queue (src/models/PendingCallback.ts and the
queue methods of WebhookService) -/

/-- Callback type discriminator of the PendingCallback model. -/
inductive CallbackType where
  | withdrawal
  | deposit
deriving DecidableEq, Repr

/-- Status of a PendingCallback row. -/
inductive CallbackStatus where
  | pending
  | completed
  | failed
deriving DecidableEq, Repr

/-- A PendingCallback document. The payload is opaque to the queue, so
it is modelled as a string. -/
structure PendingCallback where
  id : Nat
  type : CallbackType
  relatedId : String
  payload : String
  url : String
  transferStatus : Option String
  retryCount : Nat
  maxRetries : Nat
  nextRetryAt : Int
  status : CallbackStatus
  lastError : Option String
deriving DecidableEq, Repr

/-- The findOne filter used by WebhookService.addPendingCallback: an
existing row with the same type, relatedId and transferStatus that is
still pending. -/
def pendingKeyMatch (ty : CallbackType) (relatedId : String)
    (transferStatus : Option String) (r : PendingCallback) : Bool :=
  r.type == ty && r.relatedId == relatedId
    && r.transferStatus == transferStatus
    && r.status == CallbackStatus.pending

/-- WebhookService.addPendingCallback: if a pending row already exists
for the (type, relatedId, transferStatus) tuple the call is a no-op;
otherwise a fresh row is inserted with retryCount 0, maxRetries 20 and
nextRetryAt 30 seconds from now. -/
def addPendingCallback (queue : List PendingCallback) (newId : Nat)
    (ty : CallbackType) (relatedId payload url : String)
    (transferStatus : Option String) (now : Int) : List PendingCallback :=
  if queue.any (pendingKeyMatch ty relatedId transferStatus) then queue
  else
    queue ++ [{ id := newId
                type := ty
                relatedId := relatedId
                payload := payload
                url := url
                transferStatus := transferStatus
                retryCount := 0
                maxRetries := 20
                nextRetryAt := now + 30000
                status := CallbackStatus.pending
                lastError := none }]

/-- The updateMany filter used by WebhookService.retryCallback after a
successful delivery: another pending row sharing the same
(type, relatedId, transferStatus) tuple. -/
def sameKeyPendingSibling (cb r : PendingCallback) : Bool :=
  r.type == cb.type && r.relatedId == cb.relatedId
    && r.transferStatus == cb.transferStatus
    && r.status == CallbackStatus.pending

/-- The failure branch of WebhookService.retryCallback on the fetched
row itself: increment retryCount, then either mark the row failed once
retryCount has reached maxRetries or reschedule it 30 seconds later. -/
def failUpdate (now : Int) (r : PendingCallback) : PendingCallback :=
  if r.retryCount + 1 ≥ r.maxRetries then
    { r with retryCount := r.retryCount + 1, status := CallbackStatus.failed }
  else
    { r with retryCount := r.retryCount + 1, nextRetryAt := now + 30000 }

/-- WebhookService.retryCallback acting on the whole queue, where cb is
the row the sweeper fetched by id. On a successful direct delivery the
row is saved with status completed and updateMany marks every other
pending row with the same (type, relatedId, transferStatus) tuple as
completed; on a failed delivery only the fetched row is updated,
through failUpdate. -/
def retryCallback (success : Bool) (now : Int) (cb : PendingCallback)
    (queue : List PendingCallback) : List PendingCallback :=
  if success then
    queue.map (fun r =>
      if r.id == cb.id then { r with status := CallbackStatus.completed }
      else if sameKeyPendingSibling cb r then
        { r with status := CallbackStatus.completed
                 lastError := some "其他重试任务已成功" }
      else r)
  else
    queue.map (fun r => if r.id == cb.id then failUpdate now r else r)

/-- State of a single row after a sequence of sweeper ticks at the
given times, when its delivery fails on every attempt:
processPendingCallbacks selects the row during a tick only if it is
still pending and due (nextRetryAt at or before the tick time),
re-checks status pending after fetching it, and then applies the
failure branch of retryCallback, embedded here as failUpdate. -/
def sweeperFailRunRow : List Int → PendingCallback → PendingCallback
  | [], r => r
  | now :: rest, r =>
    if r.status = CallbackStatus.pending ∧ r.nextRetryAt ≤ now then
      sweeperFailRunRow rest (failUpdate now r)
    else sweeperFailRunRow rest r

/-- Total number of delivery attempts the sweeper performs on the row
over the same sequence of ticks. -/
def sweeperFailRunCount : List Int → PendingCallback → Nat
  | [], _ => 0
  | now :: rest, r =>
    if r.status = CallbackStatus.pending ∧ r.nextRetryAt ≤ now then
      1 + sweeperFailRunCount rest (failUpdate now r)
    else sweeperFailRunCount rest r

/-- Sample queue row used by concrete instantiations: a pending
withdrawal callback for relatedId w1 with transferStatus 1. -/
def cbRowA : PendingCallback :=
  { id := 1, type := CallbackType.withdrawal, relatedId := "w1"
    payload := "p", url := "u", transferStatus := some "1"
    retryCount := 0, maxRetries := 20, nextRetryAt := 0
    status := CallbackStatus.pending, lastError := none }

/-- Second sample queue row: a concurrently enqueued duplicate of
cbRowA (same tuple, different id). -/
def cbRowB : PendingCallback :=
  { cbRowA with id := 2 }

/-- Sample fresh row with a small retry ceiling, used by the concrete
instantiation of the retry-ceiling claim. -/
def cbFresh : PendingCallback :=
  { cbRowA with maxRetries := 2 }

/-! ## WithdrawalService (the withdrawal service source file) -/

/-- Withdrawal status enum from src/models/WithdrawalRecord.ts. -/
inductive WithdrawalStatus where
  | pending
  | processing
  | completed
  | failed
deriving DecidableEq, Repr

/-- Persisted WithdrawalRecord document. The amount is the BigInt value
of the decimal wei string received by the service. -/
structure WithdrawalRecord where
  id : Nat
  userId : Option String
  toAddress : String
  amount : Int
  amountFormatted : String
  status : WithdrawalStatus
  requestedBy : String
  retryCount : Nat
  transactionHash : Option String
  errorMessage : Option String
  transId : Option String
deriving DecidableEq, Repr

/-- A withdrawal callback that the service hands to
WebhookService.sendWithdrawalCallback, identified by the withdrawal id
and the transferStatus code (0 accepted, 1 completed, 2 failed). -/
structure EmittedWithdrawalCallback where
  relatedId : Nat
  transferStatus : String
deriving DecidableEq, Repr

/-- Result of WithdrawalService.processWithdrawal: the final state of
the record, the sequence of record states saved to the store, the
withdrawal callbacks the function hands to the webhook service during
those transitions, and whether it returned normally (on a failed
transfer the function rethrows after saving the failed state). -/
structure ProcessWithdrawalResult where
  record : WithdrawalRecord
  saves : List WithdrawalRecord
  emittedCallbacks : List EmittedWithdrawalCallback
  ok : Bool
deriving Repr

/-- WithdrawalService.processWithdrawal: saves the record as
processing, then submits the signed transfer; on success saves it as
completed with the transaction hash, on any error (including a missing
signing key) saves it as failed with the error message and an
incremented retryCount and rethrows. The transfer outcome is the
oracle argument. The body contains no call to
WebhookService.sendWithdrawalCallback, or to any other webhook method,
on any path, so the emission trace is empty on both branches. -/
def processWithdrawal (transferOutcome : Option String)
    (r : WithdrawalRecord) : ProcessWithdrawalResult :=
  let r1 := { r with status := WithdrawalStatus.processing }
  match transferOutcome with
  | some txHash =>
    let r2 := { r1 with transactionHash := some txHash
                        status := WithdrawalStatus.completed }
    { record := r2, saves := [r1, r2], emittedCallbacks := [], ok := true }
  | none =>
    let r2 := { r1 with status := WithdrawalStatus.failed
                        errorMessage := some "转账失败"
                        retryCount := r.retryCount + 1 }
    { record := r2, saves := [r1, r2], emittedCallbacks := [], ok := false }

/-- A mongoose save of an existing document, modelled as replacing the
row with the matching id. -/
def saveWithdrawalRecord (store : List WithdrawalRecord)
    (r : WithdrawalRecord) : List WithdrawalRecord :=
  store.map (fun q => if q.id == r.id then r else q)

/-- WithdrawalService.createWithdrawal. Validation order follows the
source: address format (web3.utils.isAddress, an external library
predicate supplied as the Bool oracle isAddr), then strict positivity
of the BigInt amount, then the funding-wallet USDT balance (an RPC
call that can itself fail, hence Option; a thrown balance lookup is
caught by the outer catch and also rejects without persisting). Only
after all three checks pass is a record persisted, with status pending,
and immediately driven through processWithdrawal; a transfer failure
there is rethrown and caught here, so the returned success flag is the
ok flag of processWithdrawal, but the record stays persisted. -/
def createWithdrawal (isAddr : Bool) (toAddress : String) (amount : Int)
    (requestedBy : String) (userId : Option String)
    (balance : Option Int) (transferOutcome : Option String)
    (fmt : Int → String) (newId : Nat)
    (store : List WithdrawalRecord) : Bool × List WithdrawalRecord :=
  if isAddr = false then (false, store)
  else if amount ≤ 0 then (false, store)
  else
    match balance with
    | none => (false, store)
    | some bal =>
      if bal < amount then (false, store)
      else
        let r0 : WithdrawalRecord :=
          { id := newId
            userId := userId
            toAddress := toAddress.toLower
            amount := amount
            amountFormatted := fmt amount
            status := WithdrawalStatus.pending
            requestedBy := requestedBy
            retryCount := 0
            transactionHash := none
            errorMessage := none
            transId := none }
        let store1 := store ++ [r0]
        let p := processWithdrawal transferOutcome r0
        (p.ok, p.saves.foldl saveWithdrawalRecord store1)

/-! ## ScannerService.scanNewBlocks and the chunked log fetch
(the scanner source file and src/services/BlockchainService.ts) -/

/-- Outcome oracle for one web3.eth.getPastLogs query combined with
parseLogsInBatches: for an inclusive block range and an attempt number,
either the decoded Transfer events of the range (malformed logs are
skipped during decoding, never fatal) or a thrown error. -/
abbrev RpcOracle := Int → Int → Nat → Option (List TransferEvent)

/-- Retry bound of BlockchainService.getPastLogsWithRetry (the default
maxRetries argument, never overridden by a caller). -/
def rpcMaxRetries : Nat := 3

/-- Attempt loop of BlockchainService.getPastLogsWithRetry: attempts
are numbered from 1; a successful attempt returns immediately, the
error of attempt rpcMaxRetries is rethrown, earlier errors back off and
retry. -/
def getPastLogsWithRetryGo (rpc : RpcOracle) (f t : Int) :
    Nat → Nat → Option (List TransferEvent)
  | _, 0 => none
  | attempt, fuel + 1 =>
    match rpc f t attempt with
    | some logs => some logs
    | none =>
      if attempt = rpcMaxRetries then none
      else getPastLogsWithRetryGo rpc f t (attempt + 1) fuel

/-- BlockchainService.getPastLogsWithRetry for a block range. -/
def getPastLogsWithRetry (rpc : RpcOracle) (f t : Int) :
    Option (List TransferEvent) :=
  getPastLogsWithRetryGo rpc f t 1 rpcMaxRetries

/-- The chunk construction loop of
BlockchainService.scanTransferEventsInChunks: starts at fromBlock and
advances by chunkSize while the start is at most toBlock; fuel bounds
the recursion and is chosen large enough to cover the whole range. -/
def chunkListGo (toBlock : Int) (chunkSize : Nat) :
    Int → Nat → List (Int × Int)
  | _, 0 => []
  | start, fuel + 1 =>
    if start ≤ toBlock then
      (start, min (start + chunkSize - 1) toBlock)
        :: chunkListGo toBlock chunkSize (start + chunkSize) fuel
    else []

/-- The chunks of an inclusive block range. -/
def chunkList (fromBlock toBlock : Int) (chunkSize : Nat) :
    List (Int × Int) :=
  chunkListGo toBlock chunkSize fromBlock (toBlock + 1 - fromBlock).toNat

/-- BlockchainService.scanTransferEventsInChunks: each chunk is fetched
through getPastLogsWithRetry; a chunk whose fetch fails after all
retries is logged and contributes an empty event list (the catch
returns []), so the overall call always succeeds and silently drops the
events of failed chunks. The bounded concurrency of the source only
controls scheduling, not which chunk results are kept. -/
def scanTransferEventsInChunks (rpc : RpcOracle) (fromBlock toBlock : Int)
    (chunkSize : Nat) : List TransferEvent :=
  (chunkList fromBlock toBlock chunkSize).foldl
    (fun acc c =>
      match getPastLogsWithRetry rpc c.1 c.2 with
      | some evs => acc ++ evs
      | none => acc) []

/-- The chunking threshold maxBlocksPerQuery of
BlockchainService.scanTransferEvents. -/
def maxBlocksPerQuery : Nat := 200

/-- BlockchainService.scanTransferEvents: ranges of at most
maxBlocksPerQuery blocks are fetched with a single retried query whose
failure propagates to the caller; larger ranges go through the chunked
path, which never fails. -/
def scanTransferEvents (rpc : RpcOracle) (fromBlock toBlock : Int) :
    Option (List TransferEvent) :=
  if toBlock - fromBlock + 1 ≤ (maxBlocksPerQuery : Int) then
    getPastLogsWithRetry rpc fromBlock toBlock
  else
    some (scanTransferEventsInChunks rpc fromBlock toBlock maxBlocksPerQuery)

/-- The adaptive batch size computed at the start of
ScannerService.scanNewBlocks from the previous cycle duration in
milliseconds. -/
def dynamicBatchSize (lastScanDuration : Nat) : Nat :=
  if lastScanDuration > 30000 then 20
  else if lastScanDuration > 10000 then 30
  else if lastScanDuration < 5000 then 100
  else 50

/-- Outcome oracle for the attribution lookup performed by
ScannerService.filterTargetEvents: given the deduplicated destination
addresses of the scanned events, either the subset that is subscribed
or wallet-owned, or a thrown error from the underlying queries. -/
abbrev AttributionOracle := List String → Option (List String)

/-- ScannerService.filterTargetEvents: empty input short-circuits;
otherwise the deduplicated destination addresses are resolved through
the attribution lookup (the cached, direct and batched internal paths
all compute the filter against the looked-up target set) and the events
whose destination is in the target set are kept. The surrounding
try/catch converts any lookup error into an empty result instead of
propagating it. -/
def filterTargetEvents (attr : AttributionOracle)
    (events : List TransferEvent) : List TransferEvent :=
  if events.isEmpty then []
  else
    match attr ((events.map (fun e => e.toAddress)).dedup) with
    | some targets =>
      events.filter (fun e => targets.contains e.toAddress)
    | none => []

/-- The singleton ScanState document (src/models/ScanState.ts);
lastScanTime and the isScanning flag are lifecycle metadata not touched
by the claims and are omitted. -/
structure ScanState where
  lastScannedBlock : Int
deriving DecidableEq, Repr

/-- The persistent state a scan cycle reads and writes: the cursor
document and the Transfer collection. -/
structure ScanStore where
  scanState : ScanState
  transfers : TransferStore
deriving DecidableEq, Repr

/-- Environment of one scan cycle: the outcome of every external effect
the cycle performs. latestBlock none models a thrown
getLatestBlockNumber, the oracles model the RPC log queries and the
attribution lookup, fmt is the amount formatter passed to the batch
save, and updateOk tells whether the findOneAndUpdate persisting the
cursor succeeds (its failure is rethrown by updateScanState). -/
structure CycleEnv where
  latestBlock : Option Int
  lastScanDuration : Nat
  confirmationBlocks : Int
  rpc : RpcOracle
  attr : AttributionOracle
  fmt : String → String
  updateOk : Bool

/-- The fromBlock a cycle computes: lastScannedBlock + 1. -/
def cycleFromBlock (store : ScanStore) : Int :=
  store.scanState.lastScannedBlock + 1

/-- The toBlock a cycle computes: the smaller of the confirmed height
and fromBlock plus the adaptive batch size. -/
def cycleToBlock (latest : Int) (env : CycleEnv) (store : ScanStore) : Int :=
  min (latest - env.confirmationBlocks)
    (cycleFromBlock store + (dynamicBatchSize env.lastScanDuration : Int))

/-- ScannerService.scanNewBlocks. Any thrown step makes the whole cycle
fail (second component false) with whatever writes happened so far kept,
exactly as in the source where scanNewBlocks rethrows into the scan
loop wrapper. The order of writes follows the source: events are saved
first, then the cursor is advanced, and only then are wallet balances
updated (that balance update swallows its own errors and touches
neither the cursor nor the Transfer collection, so it does not appear
in the store). A cycle with fromBlock past toBlock is a successful
no-op. -/
def scanNewBlocks (env : CycleEnv) (store : ScanStore) : ScanStore × Bool :=
  match env.latestBlock with
  | none => (store, false)
  | some latest =>
    let fromBlock := cycleFromBlock store
    let toBlock := cycleToBlock latest env store
    if fromBlock > toBlock then (store, true)
    else
      match scanTransferEvents env.rpc fromBlock toBlock with
      | none => (store, false)
      | some events =>
        let targetEvents := filterTargetEvents env.attr events
        let transfers1 :=
          batchSaveTransferEvents targetEvents env.fmt store.transfers
        if env.updateOk then
          ({ scanState := { lastScannedBlock := toBlock }
             transfers := transfers1 }, true)
        else
          ({ store with transfers := transfers1 }, false)

/-- A sequence of scan cycles, each with its own environment. -/
def scanSequence (envs : List CycleEnv) (store : ScanStore) : ScanStore :=
  envs.foldl (fun s e => (scanNewBlocks e s).1) store

/-- Sample event used by the concrete scanner instantiations. -/
def sampleEvent : TransferEvent :=
  { transactionHash := "0xdead", blockNumber := 120, fromAddress := "0xf"
    toAddress := "0xt", amount := "5", logIndex := 0
    transactionIndex := 0 }

/-- Sample cycle environment whose attribution lookup always fails:
latest height 160, confirmation depth 6, a single event in the range,
cursor update succeeding. -/
def scanEnvAttrFail : CycleEnv :=
  { latestBlock := some 160
    lastScanDuration := 0
    confirmationBlocks := 6
    rpc := fun _ _ _ => some [sampleEvent]
    attr := fun _ => none
    fmt := fun s => s
    updateOk := true }

/-- Sample store with the cursor at block 100 and no transfers. -/
def scanStore0 : ScanStore :=
  { scanState := { lastScannedBlock := 100 }, transfers := [] }

/-! ## Supporting lemmas for idempotent ingestion (claim C4) -/

theorem saveTransferEvent_of_hasHash (store : TransferStore)
    (event : TransferEvent) (f : String)
    (h : hasHash store event.transactionHash = true) :
    (saveTransferEvent store event f).2 = store := by
  unfold hasHash at h
  unfold saveTransferEvent
  cases hf : store.find? (fun t => t.transactionHash == event.transactionHash) with
  | none => rw [hf] at h; simp at h
  | some t => simp

theorem hasHash_saveTransferEvent_self (store : TransferStore)
    (event : TransferEvent) (f : String) :
    hasHash (saveTransferEvent store event f).2 event.transactionHash = true := by
  unfold saveTransferEvent hasHash
  cases hf : store.find? (fun t => t.transactionHash == event.transactionHash) with
  | none =>
    simp only [List.find?_append, hf]
    simp
  | some t =>
    simp [hf]

theorem hasHash_mono_save (store : TransferStore) (event : TransferEvent)
    (f : String) (h : String) (hh : hasHash store h = true) :
    hasHash (saveTransferEvent store event f).2 h = true := by
  unfold saveTransferEvent
  cases hf : store.find? (fun t => t.transactionHash == event.transactionHash) with
  | none =>
    unfold hasHash at hh ⊢
    simp only [List.find?_append]
    cases hg : store.find? (fun t => t.transactionHash == h) with
    | none => rw [hg] at hh; simp at hh
    | some t => simp
  | some t => simpa using hh

theorem hasHash_mono_batch (events : List TransferEvent)
    (fmt : String → String) (store : TransferStore) (h : String)
    (hh : hasHash store h = true) :
    hasHash (batchSaveTransferEvents events fmt store) h = true := by
  induction events generalizing store with
  | nil => simpa [batchSaveTransferEvents] using hh
  | cons e es ih =>
    have step := hasHash_mono_save store e (fmt e.amount) h hh
    simpa [batchSaveTransferEvents] using
      ih (saveTransferEvent store e (fmt e.amount)).2 step

theorem hasHash_batch_mem (events : List TransferEvent)
    (fmt : String → String) (store : TransferStore) (e : TransferEvent)
    (he : e ∈ events) :
    hasHash (batchSaveTransferEvents events fmt store) e.transactionHash = true := by
  induction events generalizing store with
  | nil => cases he
  | cons e0 es ih =>
    rcases List.mem_cons.mp he with rfl | htail
    · have self := hasHash_saveTransferEvent_self store e (fmt e.amount)
      simpa [batchSaveTransferEvents] using
        hasHash_mono_batch es fmt (saveTransferEvent store e (fmt e.amount)).2
          e.transactionHash self
    · simpa [batchSaveTransferEvents] using
        ih (saveTransferEvent store e0 (fmt e0.amount)).2 htail

theorem batchSave_noop_of_allPresent (events : List TransferEvent)
    (fmt : String → String) (store : TransferStore)
    (hall : ∀ e ∈ events, hasHash store e.transactionHash = true) :
    batchSaveTransferEvents events fmt store = store := by
  induction events with
  | nil => rfl
  | cons e es ih =>
    have he : hasHash store e.transactionHash = true :=
      hall e (List.mem_cons_self e es)
    have hsnd := saveTransferEvent_of_hasHash store e (fmt e.amount) he
    have hrest : ∀ x ∈ es, hasHash store x.transactionHash = true :=
      fun x hx => hall x (List.mem_cons_of_mem e hx)
    simp only [batchSaveTransferEvents] at ih ⊢
    rw [List.foldl_cons, hsnd, ih hrest]

/-! ## Claim theorems: C4 and C8 -/

/-- C4: scanning the same block range twice produces exactly one
persisted Transfer per transactionHash. Saving the same list of events
again on top of the store produced by the first save writes nothing:
the second batch save is a no-op on the store, because every event of
the batch already has its hash present after the first pass and
saveTransferEvent then returns the existing record without inserting. -/
theorem batchSaveTransferEvents_idempotent (events : List TransferEvent)
    (fmt : String → String) (store : TransferStore) :
    batchSaveTransferEvents events fmt
        (batchSaveTransferEvents events fmt store)
      = batchSaveTransferEvents events fmt store :=
  batchSave_noop_of_allPresent events fmt _
    (fun e he => hasHash_batch_mem events fmt store e he)

/-- C8 counterexample: the claimed round trip fails at raw amount 1.
Formatting 1 wei to six decimals yields the display value 0.000000,
which converts back through the 10^18 scale factor to 0, not 1. -/
theorem usdtRoundTrip_fails_at_one :
    usdtRoundTrip 1 = 0 ∧ usdtRoundTrip 1 ≠ 1 := by
  constructor <;> decide

/-- C8 amended: under exact decimal semantics of the 6-decimal
formatting performed by BlockchainService.formatUSDTAmount, the round
trip through the 10^18 scale factor reproduces the raw integer exactly
when, and only when, the raw amount is a multiple of 10^12; the
floating-point parseFloat pass in the source can only lose further
values on top of this. -/
theorem usdtRoundTrip_eq_iff (n : Nat) :
    usdtRoundTrip n = n ↔ 10 ^ 12 ∣ n := by
  unfold usdtRoundTrip microToWei formatUSDTAmountMicro
  constructor
  · intro h
    exact ⟨(n + 5 * 10 ^ 11) / 10 ^ 12, h.symm.trans (Nat.mul_comm _ _)⟩
  · rintro ⟨k, rfl⟩
    have h5 : 5 * 10 ^ 11 < 10 ^ 12 := by norm_num
    have hpos : 0 < 10 ^ 12 := by norm_num
    rw [Nat.add_comm, Nat.add_mul_div_left _ _ hpos, Nat.div_eq_of_lt h5,
      Nat.zero_add, Nat.mul_comm]

/-! ## Supporting lemmas for confirmation monotonicity (claim C7) -/

theorem updateOneConfirmation_pair (c1 c2 conf : Int) (t : Transfer)
    (hc : c1 ≤ c2) :
    ((updateOneConfirmation c1 conf t).status = TransferStatus.pending →
        (updateOneConfirmation c1 conf t).confirmationCount
          ≤ (updateOneConfirmation c2 conf
              (updateOneConfirmation c1 conf t)).confirmationCount)
    ∧ ((updateOneConfirmation c1 conf t).status = TransferStatus.confirmed →
        updateOneConfirmation c2 conf (updateOneConfirmation c1 conf t)
          = updateOneConfirmation c1 conf t) := by
  unfold updateOneConfirmation
  split_ifs with h1 h2 h3 h4 h5 <;> simp_all <;> omega

/-! ## Claim theorem: C7 -/

/-- C7: across two consecutive confirmation-loop ticks whose observed
latest block heights are non-decreasing, every document that the first
tick leaves in status pending has a non-decreasing confirmationCount at
the second tick, and every document that is confirmed after the first
tick is not touched by the second tick at all (updateConfirmationStatus
only selects documents with status pending). The two tick results are
related positionally, document by document. -/
theorem updateConfirmationStatus_monotone (store : TransferStore)
    (c1 c2 conf : Int) (hc : c1 ≤ c2) :
    List.Forall₂ (fun t1 t2 =>
        (t1.status = TransferStatus.pending →
          t1.confirmationCount ≤ t2.confirmationCount)
      ∧ (t1.status = TransferStatus.confirmed → t2 = t1))
      (updateConfirmationStatus c1 conf store)
      (updateConfirmationStatus c2 conf (updateConfirmationStatus c1 conf store)) := by
  unfold updateConfirmationStatus
  rw [List.forall₂_map_right_iff, List.forall₂_same]
  intro t1 ht1
  rcases List.mem_map.mp ht1 with ⟨t0, _ht0, rfl⟩
  exact updateOneConfirmation_pair c1 c2 conf t0 hc

/-- Concrete instantiation of C7 on a one-document store: a pending
transfer at block 120 observed at heights 125 then 130. -/
theorem updateConfirmationStatus_monotone_witness :
    (5 : Int) ≤ 9
    ∧ List.Forall₂ (fun t1 t2 =>
        (t1.status = TransferStatus.pending →
          t1.confirmationCount ≤ t2.confirmationCount)
      ∧ (t1.status = TransferStatus.confirmed → t2 = t1))
      (updateConfirmationStatus 5 12
        [{ transactionHash := "0xaa", blockNumber := 3, fromAddress := "0xf",
           toAddress := "0xt", amount := "1", amountFormatted := "0.000000",
           status := TransferStatus.pending, confirmationCount := 0,
           webhookSent := false }])
      (updateConfirmationStatus 9 12
        (updateConfirmationStatus 5 12
          [{ transactionHash := "0xaa", blockNumber := 3, fromAddress := "0xf",
             toAddress := "0xt", amount := "1", amountFormatted := "0.000000",
             status := TransferStatus.pending, confirmationCount := 0,
             webhookSent := false }])) :=
  ⟨by norm_num, updateConfirmationStatus_monotone _ 5 9 12 (by norm_num)⟩

/-! ## Supporting lemmas for the callback queue (claims C5 and C6) -/

theorem sweeperFailRunRow_of_not_pending (times : List Int)
    (r : PendingCallback) (h : r.status ≠ CallbackStatus.pending) :
    sweeperFailRunRow times r = r := by
  induction times with
  | nil => rfl
  | cons now rest ih =>
    unfold sweeperFailRunRow
    rw [if_neg (fun hc => h hc.1)]
    exact ih

theorem sweeperFailRunCount_of_not_pending (times : List Int)
    (r : PendingCallback) (h : r.status ≠ CallbackStatus.pending) :
    sweeperFailRunCount times r = 0 := by
  induction times with
  | nil => rfl
  | cons now rest ih =>
    unfold sweeperFailRunCount
    rw [if_neg (fun hc => h hc.1)]
    exact ih

theorem sweeperFailRun_invariant (times : List Int) (r : PendingCallback)
    (hst : r.status = CallbackStatus.pending)
    (hrc : r.retryCount < r.maxRetries) :
    (sweeperFailRunRow times r).maxRetries = r.maxRetries
    ∧ sweeperFailRunCount times r + r.retryCount ≤ r.maxRetries
    ∧ (sweeperFailRunRow times r).retryCount
        = r.retryCount + sweeperFailRunCount times r
    ∧ ((sweeperFailRunRow times r).status = CallbackStatus.failed
        ↔ r.retryCount + sweeperFailRunCount times r = r.maxRetries) := by
  induction times generalizing r with
  | nil =>
    refine ⟨rfl, by simpa [sweeperFailRunCount] using Nat.le_of_lt hrc,
      by simp [sweeperFailRunRow, sweeperFailRunCount], ?_⟩
    simp only [sweeperFailRunRow, sweeperFailRunCount]
    rw [hst]
    constructor
    · intro h; cases h
    · intro h; omega
  | cons now rest ih =>
    simp only [sweeperFailRunRow, sweeperFailRunCount]
    by_cases hdue : r.nextRetryAt ≤ now
    · rw [if_pos ⟨hst, hdue⟩, if_pos ⟨hst, hdue⟩]
      by_cases hfin : r.retryCount + 1 ≥ r.maxRetries
      · have hupd : failUpdate now r
            = { r with retryCount := r.retryCount + 1
                       status := CallbackStatus.failed } := by
          unfold failUpdate; rw [if_pos hfin]
        rw [hupd,
          sweeperFailRunRow_of_not_pending rest _ (by simp),
          sweeperFailRunCount_of_not_pending rest _ (by simp)]
        refine ⟨rfl, by simp; omega, by simp, ?_⟩
        simp
        omega
      · have hupd : failUpdate now r
            = { r with retryCount := r.retryCount + 1
                       nextRetryAt := now + 30000 } := by
          unfold failUpdate; rw [if_neg hfin]
        rw [hupd]
        obtain ⟨ha, hb, hc, hd⟩ :=
          ih { r with retryCount := r.retryCount + 1
                      nextRetryAt := now + 30000 }
            (by simpa using hst) (by simp; omega)
        simp only [] at ha hb hc hd
        refine ⟨ha, by omega, by omega, ?_⟩
        rw [hd]
        omega
    · rw [if_neg (fun hc => hdue hc.2), if_neg (fun hc => hdue hc.2)]
      obtain ⟨ha, hb, hc, hd⟩ := ih r hst hrc
      refine ⟨ha, by omega, by omega, ?_⟩
      rw [hd]

/-! ## Claim theorems: C2, C5, C6 -/

/-- C2 counterexample: a deposit callback whose three fast attempts all
fail with thrown network errors, and a withdrawal callback whose three
fast attempts all fail with non-2xx HTTP responses, both return failure
without ever creating a PendingCallback queue row: the second component
of each result, which records whether addPendingCallback was invoked,
is false. -/
theorem callbackEnqueue_dropped_counterexample :
    sendDepositCallbackModel (fun _ => AttemptOutcome.thrown) = (false, false)
    ∧ sendWithdrawalCallbackModel (fun _ => AttemptOutcome.non2xx)
        = (false, false) :=
  ⟨rfl, rfl⟩

/-- C2 amended: a durable queue row is created exactly when the callback
is a withdrawal callback whose first two attempts do not get a 2xx
response and whose third attempt fails with a thrown error; deposit
callbacks never create a queue row, and a run of non-2xx HTTP responses
never does either. -/
theorem callbackEnqueue_characterization (att : Nat → AttemptOutcome) :
    ((sendWithdrawalCallbackModel att).2 = true
      ↔ att 1 ≠ AttemptOutcome.ok2xx ∧ att 2 ≠ AttemptOutcome.ok2xx
          ∧ att 3 = AttemptOutcome.thrown)
    ∧ (sendDepositCallbackModel att).2 = false := by
  cases h1 : att 1 <;> cases h2 : att 2 <;> cases h3 : att 3 <;>
    simp [sendWithdrawalCallbackModel, sendDepositCallbackModel,
      withdrawalCallbackGo, depositCallbackGo, webhookFastRetries, h1, h2, h3]

/-- C5: enqueueing a callback for a tuple that already has a pending
row is a no-op on the queue, and after any successful delivery of a row
by the sweeper, no row of that tuple is left pending: the delivered row
is saved as completed and updateMany bulk-marks every other pending row
of the tuple completed, so every remaining row of the tuple is
terminal. -/
theorem callbackQueue_dedup (queue : List PendingCallback) (newId : Nat)
    (ty : CallbackType) (relatedId payload url : String)
    (ts : Option String) (now : Int) (cb : PendingCallback)
    (hdup : ∃ r ∈ queue, r.type = ty ∧ r.relatedId = relatedId
      ∧ r.transferStatus = ts ∧ r.status = CallbackStatus.pending) :
    addPendingCallback queue newId ty relatedId payload url ts now = queue
    ∧ ∀ r ∈ retryCallback true now cb queue,
        r.type = cb.type → r.relatedId = cb.relatedId →
        r.transferStatus = cb.transferStatus →
        r.status ≠ CallbackStatus.pending := by
  constructor
  · rcases hdup with ⟨r, hr, h1, h2, h3, h4⟩
    unfold addPendingCallback
    rw [if_pos]
    rw [List.any_eq_true]
    exact ⟨r, hr, by simp [pendingKeyMatch, h1, h2, h3, h4]⟩
  · intro r hr
    simp only [retryCallback, if_true, List.mem_map] at hr
    obtain ⟨q, _hq, rfl⟩ := hr
    by_cases hid : (q.id == cb.id) = true
    · rw [if_pos hid]
      intro _ _ _
      simp
    · rw [if_neg hid]
      by_cases hsib : sameKeyPendingSibling cb q = true
      · rw [if_pos hsib]
        intro _ _ _
        simp
      · rw [if_neg hsib]
        intro hty hrel hts hpend
        apply hsib
        simp [sameKeyPendingSibling, hty, hrel, hts, hpend]

/-- Concrete instantiation of C5: two pending rows for the tuple
(withdrawal, "w1", some "1"); enqueueing the tuple again changes
nothing, and a successful sweeper delivery of the first row leaves no
pending row for the tuple. -/
theorem callbackQueue_dedup_witness :
    (∃ r ∈ [cbRowA, cbRowB], r.type = CallbackType.withdrawal
      ∧ r.relatedId = "w1" ∧ r.transferStatus = some "1"
      ∧ r.status = CallbackStatus.pending)
    ∧ (addPendingCallback [cbRowA, cbRowB] 7 CallbackType.withdrawal
          "w1" "p" "u" (some "1") 1000 = [cbRowA, cbRowB]
      ∧ ∀ r ∈ retryCallback true 1000 cbRowA [cbRowA, cbRowB],
          r.type = cbRowA.type → r.relatedId = cbRowA.relatedId →
          r.transferStatus = cbRowA.transferStatus →
          r.status ≠ CallbackStatus.pending) :=
  ⟨by decide, callbackQueue_dedup [cbRowA, cbRowB] 7 CallbackType.withdrawal
    "w1" "p" "u" (some "1") 1000 cbRowA (by decide)⟩

/-- C6: a pending row with retryCount 0 and a positive maxRetries that
fails delivery on every sweeper attempt performs at most maxRetries
delivery attempts over any sequence of sweeper ticks, its stored
retryCount always equals the number of attempts performed, and it is
marked failed exactly when the number of attempts performed has reached
maxRetries; in particular attempt number maxRetries + 1 never happens,
because the failed row is no longer selected by the sweeper. -/
theorem callbackRetry_ceiling (times : List Int) (r : PendingCallback)
    (hst : r.status = CallbackStatus.pending) (hrc : r.retryCount = 0)
    (hm : 1 ≤ r.maxRetries) :
    sweeperFailRunCount times r ≤ r.maxRetries
    ∧ (sweeperFailRunRow times r).retryCount = sweeperFailRunCount times r
    ∧ ((sweeperFailRunRow times r).status = CallbackStatus.failed
        ↔ sweeperFailRunCount times r = r.maxRetries) := by
  obtain ⟨_, hb, hc, hd⟩ := sweeperFailRun_invariant times r hst (by omega)
  refine ⟨by omega, by omega, ?_⟩
  rw [hd]
  omega

/-- Concrete instantiation of C6: a fresh row with maxRetries 2 swept
at times 0, 50000, 100000 is attempted exactly twice and ends failed. -/
theorem callbackRetry_ceiling_witness :
    (cbFresh.status = CallbackStatus.pending ∧ cbFresh.retryCount = 0
      ∧ 1 ≤ cbFresh.maxRetries)
    ∧ (sweeperFailRunCount [0, 50000, 100000] cbFresh ≤ cbFresh.maxRetries
      ∧ (sweeperFailRunRow [0, 50000, 100000] cbFresh).retryCount
          = sweeperFailRunCount [0, 50000, 100000] cbFresh
      ∧ ((sweeperFailRunRow [0, 50000, 100000] cbFresh).status
            = CallbackStatus.failed
          ↔ sweeperFailRunCount [0, 50000, 100000] cbFresh
              = cbFresh.maxRetries)) :=
  ⟨⟨rfl, rfl, by decide⟩,
    callbackRetry_ceiling [0, 50000, 100000] cbFresh rfl rfl (by decide)⟩

/-! ## Supporting lemmas for the scanner (claims C1 and C10) -/

theorem dynamicBatchSize_le (d : Nat) : dynamicBatchSize d ≤ 100 := by
  unfold dynamicBatchSize
  split_ifs <;> norm_num

theorem scanTransferEvents_in_cycle (env : CycleEnv) (store : ScanStore)
    (latest : Int) :
    scanTransferEvents env.rpc (cycleFromBlock store)
        (cycleToBlock latest env store)
      = getPastLogsWithRetry env.rpc (cycleFromBlock store)
        (cycleToBlock latest env store) := by
  unfold scanTransferEvents
  rw [if_pos]
  have h1 : cycleToBlock latest env store
      ≤ cycleFromBlock store + (dynamicBatchSize env.lastScanDuration : Int) :=
    min_le_right _ _
  have h2 : (dynamicBatchSize env.lastScanDuration : Int) ≤ 100 := by
    exact_mod_cast dynamicBatchSize_le env.lastScanDuration
  have h3 : (maxBlocksPerQuery : Int) = 200 := by norm_num [maxBlocksPerQuery]
  omega

theorem cycleRange_le (env : CycleEnv) (store : ScanStore) (latest : Int) :
    cycleToBlock latest env store - cycleFromBlock store + 1
      ≤ (maxBlocksPerQuery : Int) := by
  have h1 : cycleToBlock latest env store
      ≤ cycleFromBlock store + (dynamicBatchSize env.lastScanDuration : Int) :=
    min_le_right _ _
  have h2 : (dynamicBatchSize env.lastScanDuration : Int) ≤ 100 := by
    exact_mod_cast dynamicBatchSize_le env.lastScanDuration
  have h3 : (maxBlocksPerQuery : Int) = 200 := by norm_num [maxBlocksPerQuery]
  omega

theorem scanNewBlocks_mono (env : CycleEnv) (store : ScanStore) :
    store.scanState.lastScannedBlock
      ≤ (scanNewBlocks env store).1.scanState.lastScannedBlock := by
  unfold scanNewBlocks
  cases hl : env.latestBlock with
  | none => simp
  | some latest =>
    simp only
    by_cases hgt : cycleFromBlock store > cycleToBlock latest env store
    · rw [if_pos hgt]
    · rw [if_neg hgt]
      cases hs : scanTransferEvents env.rpc (cycleFromBlock store)
          (cycleToBlock latest env store) with
      | none => simp
      | some events =>
        simp only
        by_cases hu : env.updateOk = true
        · rw [if_pos hu]
          simp only
          unfold cycleFromBlock at hgt
          omega
        · rw [if_neg hu]

/-! ## Claim theorems: C9, C3, C1, C10 -/

theorem foldl_saveWithdrawalRecord_length (rs : List WithdrawalRecord)
    (s : List WithdrawalRecord) :
    (rs.foldl saveWithdrawalRecord s).length = s.length := by
  induction rs generalizing s with
  | nil => rfl
  | cons r rest ih =>
    rw [List.foldl_cons, ih]
    simp [saveWithdrawalRecord]

/-- C9: createWithdrawal rejects synchronously, returning failure with
the store untouched, when the target address fails the address-format
check, when the amount is not strictly positive, or when the
funding-wallet balance is below the requested amount; and whenever the
store was changed at all, all three validations necessarily passed and
exactly one new record was persisted. -/
theorem createWithdrawal_validation (isAddr : Bool) (toAddress : String)
    (amount : Int) (requestedBy : String) (userId : Option String)
    (balance : Option Int) (transferOutcome : Option String)
    (fmt : Int → String) (newId : Nat) (store : List WithdrawalRecord) :
    (isAddr = false →
      createWithdrawal isAddr toAddress amount requestedBy userId balance
        transferOutcome fmt newId store = (false, store))
    ∧ (amount ≤ 0 →
      createWithdrawal isAddr toAddress amount requestedBy userId balance
        transferOutcome fmt newId store = (false, store))
    ∧ (∀ bal, balance = some bal → bal < amount →
      createWithdrawal isAddr toAddress amount requestedBy userId balance
        transferOutcome fmt newId store = (false, store))
    ∧ ((createWithdrawal isAddr toAddress amount requestedBy userId balance
          transferOutcome fmt newId store).2 ≠ store →
        isAddr = true ∧ 0 < amount
        ∧ (∃ bal, balance = some bal ∧ amount ≤ bal)
        ∧ (createWithdrawal isAddr toAddress amount requestedBy userId
            balance transferOutcome fmt newId store).2.length
            = store.length + 1) := by
  refine ⟨?_, ?_, ?_, ?_⟩
  · intro h
    simp [createWithdrawal, h]
  · intro h
    by_cases h1 : isAddr = false
    · simp [createWithdrawal, h1]
    · simp [createWithdrawal, h1, h]
  · intro bal hb hlt
    by_cases h1 : isAddr = false
    · simp [createWithdrawal, h1]
    · by_cases h2 : amount ≤ 0
      · simp [createWithdrawal, h1, h2]
      · simp [createWithdrawal, h1, h2, hb, hlt]
  · intro hne
    by_cases h1 : isAddr = false
    · exact absurd (by simp [createWithdrawal, h1]) hne
    · by_cases h2 : amount ≤ 0
      · exact absurd (by simp [createWithdrawal, h1, h2]) hne
      · cases hb : balance with
        | none => exact absurd (by simp [createWithdrawal, h1, h2, hb]) hne
        | some bal =>
          by_cases h3 : bal < amount
          · exact absurd (by simp [createWithdrawal, h1, h2, hb, h3]) hne
          · refine ⟨Bool.ne_false_iff.mp h1, by omega, ⟨bal, rfl, by omega⟩, ?_⟩
            simp only [createWithdrawal, h1, h2, hb, h3, if_neg, if_false]
            simp [foldl_saveWithdrawalRecord_length]

/-- Concrete instantiation of C9, the insufficient-funds scenario of
the spec: requesting 1 token from a wallet holding 0.5 token is
rejected and no record is persisted. -/
theorem createWithdrawal_validation_witness :
    createWithdrawal true "0xabc" (10 ^ 18) "api" none
        (some (5 * 10 ^ 17)) none (fun _ => "1.000000") 1 []
      = (false, []) :=
  (createWithdrawal_validation true "0xabc" (10 ^ 18) "api" none
      (some (5 * 10 ^ 17)) none (fun _ => "1.000000") 1 []).2.2.1
    (5 * 10 ^ 17) rfl (by norm_num)

/-- C3: WithdrawalService.processWithdrawal drives the record through
pending to processing and then to completed or failed, but hands no
withdrawal callback to the webhook service on any of these transitions:
the saved-state trace shows the transitions while the emission trace is
empty on both branches, although the repository documentation states
that each transition sends a callback with transferStatus 0, 1 or 2. -/
theorem processWithdrawal_emits_no_callback
    (transferOutcome : Option String) (r : WithdrawalRecord) :
    (processWithdrawal transferOutcome r).emittedCallbacks = []
    ∧ (processWithdrawal transferOutcome r).saves.map WithdrawalRecord.status
        = [WithdrawalStatus.processing,
          match transferOutcome with
          | some _ => WithdrawalStatus.completed
          | none => WithdrawalStatus.failed] := by
  cases transferOutcome <;> simp [processWithdrawal]

/-- C1: the scan cursor is non-decreasing over any sequence of cycles;
a cycle that fails at any step leaves the ScanState unchanged; and a
cycle that moved the cursor at all must have had an eligible range of
at most maxBlocksPerQuery blocks (so the lossy chunked fetch path was
not taken) whose single full-range retried fetch succeeded, and it
moved the cursor exactly to the end of that fully fetched range. -/
theorem scanNewBlocks_cursor (env : CycleEnv) (store : ScanStore)
    (envs : List CycleEnv) :
    store.scanState.lastScannedBlock
      ≤ (scanNewBlocks env store).1.scanState.lastScannedBlock
    ∧ ((scanNewBlocks env store).2 = false →
        (scanNewBlocks env store).1.scanState = store.scanState)
    ∧ ((scanNewBlocks env store).1.scanState.lastScannedBlock
          ≠ store.scanState.lastScannedBlock →
        ∃ latest, env.latestBlock = some latest
          ∧ cycleFromBlock store ≤ cycleToBlock latest env store
          ∧ cycleToBlock latest env store - cycleFromBlock store + 1
              ≤ (maxBlocksPerQuery : Int)
          ∧ (∃ evs, getPastLogsWithRetry env.rpc (cycleFromBlock store)
                (cycleToBlock latest env store) = some evs)
          ∧ (scanNewBlocks env store).1.scanState.lastScannedBlock
              = cycleToBlock latest env store)
    ∧ store.scanState.lastScannedBlock
        ≤ (scanSequence envs store).scanState.lastScannedBlock := by
  refine ⟨scanNewBlocks_mono env store, ?_, ?_, ?_⟩
  · unfold scanNewBlocks
    cases hl : env.latestBlock with
    | none => intro _; rfl
    | some latest =>
      simp only
      by_cases hgt : cycleFromBlock store > cycleToBlock latest env store
      · rw [if_pos hgt]
        simp
      · rw [if_neg hgt]
        cases hs : scanTransferEvents env.rpc (cycleFromBlock store)
            (cycleToBlock latest env store) with
        | none => intro _; rfl
        | some events =>
          simp only
          by_cases hu : env.updateOk = true
          · rw [if_pos hu]
            simp
          · rw [if_neg hu]
            intro _; rfl
  · unfold scanNewBlocks
    cases hl : env.latestBlock with
    | none => intro h; exact absurd rfl h
    | some latest =>
      simp only
      by_cases hgt : cycleFromBlock store > cycleToBlock latest env store
      · rw [if_pos hgt]
        intro h; exact absurd rfl h
      · rw [if_neg hgt]
        cases hs : scanTransferEvents env.rpc (cycleFromBlock store)
            (cycleToBlock latest env store) with
        | none => intro h; exact absurd rfl h
        | some events =>
          simp only
          by_cases hu : env.updateOk = true
          · rw [if_pos hu]
            intro _
            refine ⟨latest, rfl, by omega, cycleRange_le env store latest, ?_, rfl⟩
            refine ⟨events, ?_⟩
            rw [← scanTransferEvents_in_cycle]
            exact hs
          · rw [if_neg hu]
            intro h; exact absurd rfl h
  · induction envs generalizing store with
    | nil => exact le_rfl
    | cons e es ih =>
      calc store.scanState.lastScannedBlock
          ≤ (scanNewBlocks e store).1.scanState.lastScannedBlock :=
            scanNewBlocks_mono e store
        _ ≤ (scanSequence es (scanNewBlocks e store).1).scanState.lastScannedBlock :=
            ih (scanNewBlocks e store).1
        _ = (scanSequence (e :: es) store).scanState.lastScannedBlock := by
            rw [scanSequence, scanSequence, List.foldl_cons]

/-- Concrete instantiation of C1 at a cycle whose attribution lookup
fails: cursor at 100, latest height 160, confirmation depth 6. -/
theorem scanNewBlocks_cursor_witness :
    scanStore0.scanState.lastScannedBlock
      ≤ (scanNewBlocks scanEnvAttrFail scanStore0).1.scanState.lastScannedBlock
    ∧ ((scanNewBlocks scanEnvAttrFail scanStore0).2 = false →
        (scanNewBlocks scanEnvAttrFail scanStore0).1.scanState
          = scanStore0.scanState)
    ∧ ((scanNewBlocks scanEnvAttrFail scanStore0).1.scanState.lastScannedBlock
          ≠ scanStore0.scanState.lastScannedBlock →
        ∃ latest, scanEnvAttrFail.latestBlock = some latest
          ∧ cycleFromBlock scanStore0
              ≤ cycleToBlock latest scanEnvAttrFail scanStore0
          ∧ cycleToBlock latest scanEnvAttrFail scanStore0
              - cycleFromBlock scanStore0 + 1 ≤ (maxBlocksPerQuery : Int)
          ∧ (∃ evs, getPastLogsWithRetry scanEnvAttrFail.rpc
                (cycleFromBlock scanStore0)
                (cycleToBlock latest scanEnvAttrFail scanStore0) = some evs)
          ∧ (scanNewBlocks scanEnvAttrFail scanStore0).1.scanState.lastScannedBlock
              = cycleToBlock latest scanEnvAttrFail scanStore0)
    ∧ scanStore0.scanState.lastScannedBlock
        ≤ (scanSequence [scanEnvAttrFail] scanStore0).scanState.lastScannedBlock :=
  scanNewBlocks_cursor scanEnvAttrFail scanStore0 [scanEnvAttrFail]

/-- C10: when the attribution lookup fails for the scanned range while
everything else succeeds, the filter returns no target events, nothing
is persisted to the Transfer collection, and the cycle nevertheless
completes successfully and advances the cursor to the end of the
range: the matching transfers of the range are silently dropped. -/
theorem scanNewBlocks_attributionFailure (env : CycleEnv)
    (store : ScanStore) (latest : Int) (evs : List TransferEvent)
    (hl : env.latestBlock = some latest)
    (hattr : ∀ addrs, env.attr addrs = none)
    (hrange : cycleFromBlock store ≤ cycleToBlock latest env store)
    (hfetch : getPastLogsWithRetry env.rpc (cycleFromBlock store)
        (cycleToBlock latest env store) = some evs)
    (hupd : env.updateOk = true) :
    filterTargetEvents env.attr evs = []
    ∧ (scanNewBlocks env store).1.transfers = store.transfers
    ∧ (scanNewBlocks env store).1.scanState.lastScannedBlock
        = cycleToBlock latest env store
    ∧ (scanNewBlocks env store).2 = true := by
  have hfilter : filterTargetEvents env.attr evs = [] := by
    unfold filterTargetEvents
    by_cases he : evs.isEmpty = true
    · rw [if_pos he]
    · rw [if_neg he, hattr]
  have hscan : scanTransferEvents env.rpc (cycleFromBlock store)
      (cycleToBlock latest env store) = some evs := by
    rw [scanTransferEvents_in_cycle]
    exact hfetch
  have hno : ¬ (cycleFromBlock store > cycleToBlock latest env store) := by
    omega
  have hcalc : scanNewBlocks env store
      = ({ scanState := { lastScannedBlock := cycleToBlock latest env store }
           transfers := store.transfers }, true) := by
    unfold scanNewBlocks
    rw [hl]
    simp only [hno, if_false, hscan, hupd, if_true, hfilter,
      batchSaveTransferEvents, List.foldl_nil]
  rw [hcalc]
  exact ⟨hfilter, rfl, rfl, rfl⟩

/-- Concrete instantiation of C10: the sample cycle with a failing
attribution lookup advances the cursor from 100 to 154 while the event
found in the range is dropped. -/
theorem scanNewBlocks_attributionFailure_witness :
    (scanEnvAttrFail.latestBlock = some 160
      ∧ cycleFromBlock scanStore0
          ≤ cycleToBlock 160 scanEnvAttrFail scanStore0
      ∧ getPastLogsWithRetry scanEnvAttrFail.rpc (cycleFromBlock scanStore0)
          (cycleToBlock 160 scanEnvAttrFail scanStore0) = some [sampleEvent]
      ∧ scanEnvAttrFail.updateOk = true)
    ∧ (filterTargetEvents scanEnvAttrFail.attr [sampleEvent] = []
      ∧ (scanNewBlocks scanEnvAttrFail scanStore0).1.transfers
          = scanStore0.transfers
      ∧ (scanNewBlocks scanEnvAttrFail scanStore0).1.scanState.lastScannedBlock
          = cycleToBlock 160 scanEnvAttrFail scanStore0
      ∧ (scanNewBlocks scanEnvAttrFail scanStore0).2 = true) :=
  ⟨⟨rfl, by decide, rfl, rfl⟩,
    scanNewBlocks_attributionFailure scanEnvAttrFail scanStore0 160
      [sampleEvent] rfl (fun _ => rfl) (by decide) rfl rfl⟩

end EvmScanner
